import Mathlib

/-!
Verification of `src/confirmed-native-extra.ts`: a worker that back-fills
missed native-asset deposits for orders.  The file contains two versions of
the same worker (an original and a refactor, separated by a document
separator); both are embedded below as namespaces `V1` and `V2`.

External collaborators (the `ns` bignumber wrapper, `ethers.utils.formatEther`,
`getEthereumNativeDepositUniqueId`, the GraphQL credit ledger, the order
store, etherscan, the node provider and the task queue) are not part of the
repository and are modelled from the spec, with each such definition marked
`Modelled from the spec:` in its doc comment.
-/

namespace CNE

/-! ## Decimal strings

The worker manipulates amounts as decimal strings (BigNumber `.toString()`,
the `ns` wrapper).  We give an executable decimal printer/parser and a
round-trip lemma, so that string arithmetic can be related to `Nat`
arithmetic. -/

/-- The character for a single decimal digit `d < 10`. -/
def digitChar (d : Nat) : Char := Char.ofNat (48 + d)

/-- Fuel-based list of decimal digit characters of `n`, most significant
first; empty for `n = 0`. -/
def toDecAux : Nat → Nat → List Char
  | _, 0 => []
  | 0, _ + 1 => []
  | fuel + 1, n + 1 =>
    toDecAux fuel ((n + 1) / 10) ++ [digitChar ((n + 1) % 10)]

/-- Canonical decimal string of a natural number (what BigNumber
`.toString()` produces for a non-negative integer). -/
def toDecString (n : Nat) : String :=
  if n = 0 then "0" else ⟨toDecAux n n⟩

/-- Is `c` one of the characters 0-9? -/
def isDigitCh (c : Char) : Bool := 48 ≤ c.toNat && c.toNat ≤ 57

/-- Parse a non-negative decimal string; `none` on the empty string or any
non-digit character (BigNumber construction throws there). -/
def parseDec (s : String) : Option Nat :=
  if s.data ≠ [] ∧ s.data.all isDigitCh then
    some (s.data.foldl (fun a c => 10 * a + (c.toNat - 48)) 0)
  else none

/-- Modelled from the spec: `ns.sum`, the bignumber.js string-arithmetic
wrapper from `@sideshift/shared` (missing from src).  Exact decimal
addition on strings, no binary-float rounding; `none` models the
`InvalidAmount` failure on malformed numeric input.  The worker only passes
whole-number smallest-unit strings, so the model is over natural-number
decimal strings. -/
def nsSum (a b : String) : Option String :=
  match parseDec a, parseDec b with
  | some x, some y => some (toDecString (x + y))
  | _, _ => none

/-- Modelled from the spec: `ns.times`, exact decimal multiplication on
strings (see `nsSum`). -/
def nsTimes (a b : String) : Option String :=
  match parseDec a, parseDec b with
  | some x, some y => some (toDecString (x * y))
  | _, _ => none

/-- The AmountReconciler expression of both versions of `scanTxid`:
`ns.sum(value, ns.times(gasLimit, gasPrice))`. -/
def amountTotal (value gasLimit gasPrice : String) : Option String :=
  (nsTimes gasLimit gasPrice).bind fun p => nsSum value p

/-! ## Data model -/

/-- Configuration record `nativeMethod` from the application context:
the asset symbol and the id used as `depositMethodId`. -/
structure NativeMethod where
  asset : String
  id : String
deriving DecidableEq, Repr

/-- The `deposit_address` JSON column of an order: only its `address`
field is read by this worker. -/
structure DepositAddress where
  address : String
deriving DecidableEq, Repr

/-- The `Order` entity as read by this worker: id, creation time
(`createdAt.getTime()` in milliseconds), and the possibly-unassigned
deposit address. -/
structure Order where
  id : String
  createdAt : Nat
  depositAddress : Option DepositAddress
deriving DecidableEq, Repr

/-- One entry of the etherscan `txlist` response, as validated by
`accountTxListResultSchema` (`hash`, `from`, `to`, `value` strings).
`value` is stored as the integer that `ethers.BigNumber.from` parses
from the decimal string. -/
structure CandidateTx where
  hash : String
  sender : String
  toAddr : String
  value : Nat
deriving DecidableEq, Repr

/-- A transaction response from the node provider (`ethers`
`TransactionResponse`).  Node responses are not contractually typed, so the
fields checked by the structural guard are modelled loosely: `isObject`
models `typeof tx === 'object'`; `from` is a string where the empty string
models the absent/falsy value; `hash` and `blockHash` are `none` when not a
string; `to` is `none` when absent; `gasPrice` is `none` when `undefined`.
Amounts are the underlying BigNumber integers. -/
structure RawTx where
  isObject : Bool
  sender : String
  hash : Option String
  blockHash : Option String
  toAddr : Option String
  value : Nat
  gasLimit : Nat
  gasPrice : Option Nat
deriving DecidableEq, Repr

/-- One external-collaborator call, with its arguments: the order store
lookups, the etherscan block-time and tx-list queries, the node-provider
transaction fetch, and the credit-ledger call. -/
inductive ExtCall where
  | findOrderById (orderId : String)
  | fetchOrderForAddress (address : String)
  | getBlocknumber (timestampMillis : Nat)
  | getTxList (address : String) (blockNumber : String)
  | getTransaction (hash : String)
  | maybeCreateDeposit (orderId : String) (txid : String) (amount : String) (uniqueId : String)
deriving DecidableEq, Repr

/-- The structured content of the `Stored deposit.` success log line:
txid, the formatted amount interpolated into the message, the asset and
the order id. -/
structure SuccessObs where
  txid : String
  amount : String
  asset : String
  orderId : String
deriving DecidableEq, Repr

/-- Responses of all external collaborators, fixed for one run.  `none`
models an absent result or a thrown-and-caught failure at that boundary. -/
structure Env where
  account : String
  nativeMethod : NativeMethod
  etherscanApiKey : Option String
  orderById : String → Option Order
  orderByAddress : String → Option Order
  blocknumberAt : Nat → Option String
  txListAt : String → String → Option (List CandidateTx)
  nodeGetTransaction : String → Option RawTx

/-- Modelled from the spec: `getEthereumNativeDepositUniqueId` from
`./shared` (missing from src) — a deterministic string derived from the
native method and the transaction hash, used as the idempotency key for
crediting. -/
def getEthereumNativeDepositUniqueId (m : NativeMethod) (txid : String) : String :=
  m.id ++ ":native:" ++ txid

/-- Modelled from the spec: the credit ledger behind
`graphQLClient.maybeInternalCreateDeposit` (external service) — idempotent
by unique id: returns `true` and records the unique id only if no credit
with that unique id exists; returns `false` otherwise.  The ledger state is
the list of recorded unique ids. -/
def maybeInternalCreateDeposit (ledger : List String) (uniqueId : String) :
    Bool × List String :=
  if uniqueId ∈ ledger then (false, ledger) else (true, uniqueId :: ledger)

/-- Modelled from the spec: `ethers.utils.formatEther` — exact conversion
of a smallest-unit (wei) integer to a major-unit decimal string: integer
part, a dot, and the fractional part with trailing zeros trimmed (at least
one fractional digit). -/
def formatEther (wei : Nat) : String :=
  let ip := toDecString (wei / 10 ^ 18)
  let fracRaw := toDecString (wei % 10 ^ 18)
  let fracPadded := List.replicate (18 - fracRaw.data.length) '0' ++ fracRaw.data
  let fracTrimmed := (fracPadded.reverse.dropWhile (· == '0')).reverse
  ip ++ "." ++ (if fracTrimmed.isEmpty then "0" else ⟨fracTrimmed⟩)

/-- The candidate selection of both versions of `runScanByOrderId`:
keep transactions whose BigNumber value is greater than zero, then
slice to the first 10. -/
def trimmedTxs (txs : List CandidateTx) : List CandidateTx :=
  (txs.filter fun tx => 0 < tx.value).take 10

instance {ε α : Type} [DecidableEq ε] [DecidableEq α] : DecidableEq (Except ε α)
  | .error e, .error f =>
    if h : e = f then isTrue (by rw [h]) else isFalse (by intro hc; cases hc; exact h rfl)
  | .error _, .ok _ => isFalse (by intro h; cases h)
  | .ok _, .error _ => isFalse (by intro h; cases h)
  | .ok a, .ok b =>
    if h : a = b then isTrue (by rw [h]) else isFalse (by intro hc; cases hc; exact h rfl)

/-- Everything one `scanTxid` invocation produces: its result (`Except`
models a thrown error), the ledger after it, the external calls it made in
order, and the success log lines it emitted. -/
structure ScanOut where
  result : Except String Bool
  ledger : List String
  calls : List ExtCall
  logs : List SuccessObs
deriving DecidableEq, Repr

/-- What processing one candidate inside the `pMap` body produces:
ledger, calls, logs, and the error with which this candidate's mapper
rejected (if any). -/
structure CandOut where
  ledger : List String
  calls : List ExtCall
  logs : List SuccessObs
  err : Option String
deriving DecidableEq, Repr

/-- The joined outcome of the `pMap` over all trimmed candidates. -/
structure PMapOut where
  ledger : List String
  calls : List ExtCall
  logs : List SuccessObs
  errs : List (Option String)
deriving DecidableEq, Repr

/-- Outcome of one queue task (`queue.run` handler invocation). `failed`
is the error with which the handler promise rejected, if any. -/
structure TaskOut where
  ledger : List String
  calls : List ExtCall
  logs : List SuccessObs
  failed : Option String
deriving DecidableEq, Repr

/-- The first error among the per-candidate outcomes: the error a
rejected `pMap` propagates to the handler. -/
def firstErr (errs : List (Option String)) : Option String :=
  (errs.filterMap id).head?

/-- Outcome of a whole consumer run over a sequence of queued order ids. -/
structure RunOut where
  ledger : List String
  tasks : List TaskOut
deriving DecidableEq, Repr

/-- ASCII lower-casing of one character (A-Z to a-z). -/
def lowerChar (c : Char) : Char :=
  if 65 ≤ c.toNat ∧ c.toNat ≤ 90 then Char.ofNat (c.toNat + 32) else c

/-- Modelled from the spec: JavaScript `String.prototype.toLowerCase` as
used on the ASCII hex addresses compared by the worker. -/
def toLowerStr (s : String) : String := ⟨s.data.map lowerChar⟩

/-- The `isGasPriceAndToAddressCorrect` guard computed inside both
versions of `scanTxid`: the destination must be present (truthy), equal
the configured account case-insensitively, and a gas price must be
present.  The source computes it as a local constant; it is hoisted here
so both embeddings share it verbatim. -/
def isGasPriceAndToAddressCorrect (account : String) (tx : RawTx) : Bool :=
  match tx.toAddr with
  | none => false
  | some t => !(t = "") && (toLowerStr t == toLowerStr account) && tx.gasPrice.isSome

/-! ## V1: the worker as written before the document separator -/

namespace V1

/-- Version-1 `scanTxid` (src lines 67-120): inline structural
asserts, then the destination/gas-price guard, the `ns` total, the order
lookup by sender, and the idempotent credit call. -/
def scanTxid (env : Env) (ledger : List String) (tx : RawTx) : ScanOut :=
  if !tx.isObject then ⟨.error "tx is not object", ledger, [], []⟩
  else if tx.sender = "" then ⟨.error "from missing", ledger, [], []⟩
  else match tx.hash with
  | none => ⟨.error "txid must be string", ledger, [], []⟩
  | some txid =>
    match tx.blockHash with
    | none => ⟨.error "blockHash must be string", ledger, [], []⟩
    | some _ =>
      if !(isGasPriceAndToAddressCorrect env.account tx) then ⟨.ok false, ledger, [], []⟩
      else
        match amountTotal (toDecString tx.value) (toDecString tx.gasLimit)
            (toDecString (tx.gasPrice.getD 0)) with
        | none => ⟨.error "InvalidAmount", ledger, [], []⟩
        | some total =>
          match env.orderByAddress tx.sender with
          | none => ⟨.ok false, ledger, [.fetchOrderForAddress tx.sender], []⟩
          | some order =>
            let valueAsEther := formatEther tx.value
            let totalAsEther := formatEther ((parseDec total).getD 0)
            let uid := getEthereumNativeDepositUniqueId env.nativeMethod txid
            let cr := maybeInternalCreateDeposit ledger uid
            let calls := [ExtCall.fetchOrderForAddress tx.sender,
              .maybeCreateDeposit order.id txid totalAsEther uid]
            if !cr.1 then ⟨.ok false, cr.2, calls, []⟩
            else ⟨.ok true, cr.2, calls,
              [⟨txid, valueAsEther, env.nativeMethod.asset, order.id⟩]⟩

/-- The body of the `pMap` in `runScanByOrderId` for one candidate: fetch
the full transaction from the node; if the node does not know the hash,
log and skip; otherwise `scanTxid`. -/
def scanCandidate (env : Env) (ledger : List String) (c : CandidateTx) : CandOut :=
  match env.nodeGetTransaction c.hash with
  | none => ⟨ledger, [.getTransaction c.hash], [], none⟩
  | some ethersTx =>
    let s := scanTxid env ledger ethersTx
    ⟨s.ledger, .getTransaction c.hash :: s.calls, s.logs,
      match s.result with
      | .error e => some e
      | .ok _ => none⟩

/-- Modelled from the spec: the `pMap` (p-map library, missing from src)
over the trimmed candidates.  p-map with its default options starts every
mapper, and a mapper rejection does not cancel the others; effects are
sequentialised in list order, one outcome per candidate. -/
def scanCandidates (env : Env) : List String → List CandidateTx → PMapOut
  | ledger, [] => ⟨ledger, [], [], []⟩
  | ledger, c :: rest =>
    let r := scanCandidate env ledger c
    let rs := scanCandidates env r.ledger rest
    ⟨rs.ledger, r.calls ++ rs.calls, r.logs ++ rs.logs, r.err :: rs.errs⟩

/-- The `queue.run` handler of the first version (src lines 162-231):
order lookup, missing-order / missing-address early returns, block-number
resolution, transaction-list fetch (its error caught by the caller's
`try`), candidate trimming, and the `pMap` scan. -/
def handleOrder (env : Env) (ledger : List String) (orderId : String) : TaskOut :=
  match env.orderById orderId with
  | none => ⟨ledger, [.findOrderById orderId], [], none⟩
  | some order =>
    match order.depositAddress with
    | none => ⟨ledger, [.findOrderById orderId], [], none⟩
    | some depositAddress =>
      match env.blocknumberAt order.createdAt with
      | none => ⟨ledger, [.findOrderById orderId, .getBlocknumber order.createdAt], [], none⟩
      | some blockNumber =>
        if blockNumber = "" then
          ⟨ledger, [.findOrderById orderId, .getBlocknumber order.createdAt], [], none⟩
        else
          match env.txListAt depositAddress.address blockNumber with
          | none =>
            ⟨ledger, [.findOrderById orderId, .getBlocknumber order.createdAt,
              .getTxList depositAddress.address blockNumber], [], none⟩
          | some txs =>
            let r := scanCandidates env ledger (trimmedTxs txs)
            ⟨r.ledger,
              [.findOrderById orderId, .getBlocknumber order.createdAt,
                .getTxList depositAddress.address blockNumber] ++ r.calls,
              r.logs, firstErr r.errs⟩

/-- The queued tasks processed in order, threading the ledger. -/
def runQueue (env : Env) : List String → List String → RunOut
  | ledger, [] => ⟨ledger, []⟩
  | ledger, orderId :: rest =>
    let t := handleOrder env ledger orderId
    let r := runQueue env t.ledger rest
    ⟨r.ledger, t :: r.tasks⟩

/-- Version-1 `runScanByOrderId`: if etherscan is not
configured the consumer processes no tasks at all; otherwise every queued
order id is handled. -/
def runScanByOrderId (env : Env) (ledger : List String) (orderIds : List String) : RunOut :=
  if env.etherscanApiKey.getD "" = "" then ⟨ledger, []⟩
  else runQueue env ledger orderIds

end V1

/-! ## V2: the worker as written after the document separator -/

namespace V2

/-- Version-2 `validateTx` (src lines 297-310): the
structural guard extracted from `scanTxid`. -/
def validateTx (tx : RawTx) : Except String Unit :=
  if !tx.isObject then .error "tx is not object"
  else if tx.sender = "" then .error "from missing"
  else match tx.hash with
  | none => .error "txid must be string"
  | some _ =>
    match tx.blockHash with
    | none => .error "blockHash must be string"
    | some _ => .ok ()

/-- Version-2 `scanTxid` (src lines 312-358): `validateTx`
first, then the same guard, total, order lookup and credit call as V1. -/
def scanTxid (env : Env) (ledger : List String) (tx : RawTx) : ScanOut :=
  match validateTx tx with
  | .error e => ⟨.error e, ledger, [], []⟩
  | .ok _ =>
    let txid := tx.hash.getD ""
    if !(isGasPriceAndToAddressCorrect env.account tx) then ⟨.ok false, ledger, [], []⟩
    else
      match amountTotal (toDecString tx.value) (toDecString tx.gasLimit)
          (toDecString (tx.gasPrice.getD 0)) with
      | none => ⟨.error "InvalidAmount", ledger, [], []⟩
      | some total =>
        match env.orderByAddress tx.sender with
        | none => ⟨.ok false, ledger, [.fetchOrderForAddress tx.sender], []⟩
        | some order =>
          let valueAsEther := formatEther tx.value
          let totalAsEther := formatEther ((parseDec total).getD 0)
          let uid := getEthereumNativeDepositUniqueId env.nativeMethod txid
          let cr := maybeInternalCreateDeposit ledger uid
          let calls := [ExtCall.fetchOrderForAddress tx.sender,
            .maybeCreateDeposit order.id txid totalAsEther uid]
          if !cr.1 then ⟨.ok false, cr.2, calls, []⟩
          else ⟨.ok true, cr.2, calls,
            [⟨txid, valueAsEther, env.nativeMethod.asset, order.id⟩]⟩

/-- Version-2 `checkIfOrderExistsAndOrderAddressAssigned`
(src lines 402-416): false when the order is absent or has no deposit
address. -/
def checkIfOrderExistsAndOrderAddressAssigned (order : Option Order) : Bool :=
  match order with
  | none => false
  | some o => o.depositAddress.isSome

/-- The body of the `pMap` of the refactored version, identical to V1's. -/
def scanCandidate (env : Env) (ledger : List String) (c : CandidateTx) : CandOut :=
  match env.nodeGetTransaction c.hash with
  | none => ⟨ledger, [.getTransaction c.hash], [], none⟩
  | some ethersTx =>
    let s := scanTxid env ledger ethersTx
    ⟨s.ledger, .getTransaction c.hash :: s.calls, s.logs,
      match s.result with
      | .error e => some e
      | .ok _ => none⟩

/-- Modelled from the spec: the `pMap` of the refactored version
(see `V1.scanCandidates`). -/
def scanCandidates (env : Env) : List String → List CandidateTx → PMapOut
  | ledger, [] => ⟨ledger, [], [], []⟩
  | ledger, c :: rest =>
    let r := scanCandidate env ledger c
    let rs := scanCandidates env r.ledger rest
    ⟨rs.ledger, r.calls ++ rs.calls, r.logs ++ rs.logs, r.err :: rs.errs⟩

/-- The `queue.run` handler of the refactored version (src lines 427-479):
the existence/address check via the extracted predicate, then block-number
resolution, the tx-list fetch (its error caught inside
`getEtherScanTxListForAddressInDesc`, surfacing as an absent result),
candidate trimming, and the `pMap` scan. -/
def handleOrder (env : Env) (ledger : List String) (orderId : String) : TaskOut :=
  let order := env.orderById orderId
  if !checkIfOrderExistsAndOrderAddressAssigned order then
    ⟨ledger, [.findOrderById orderId], [], none⟩
  else
    match order with
    | none => ⟨ledger, [.findOrderById orderId], [], none⟩
    | some o =>
      match o.depositAddress with
      | none => ⟨ledger, [.findOrderById orderId], [], none⟩
      | some depositAddress =>
        match env.blocknumberAt o.createdAt with
        | none => ⟨ledger, [.findOrderById orderId, .getBlocknumber o.createdAt], [], none⟩
        | some blockNumber =>
          if blockNumber = "" then
            ⟨ledger, [.findOrderById orderId, .getBlocknumber o.createdAt], [], none⟩
          else
            match env.txListAt depositAddress.address blockNumber with
            | none =>
              ⟨ledger, [.findOrderById orderId, .getBlocknumber o.createdAt,
                .getTxList depositAddress.address blockNumber], [], none⟩
            | some txs =>
              let r := scanCandidates env ledger (trimmedTxs txs)
              ⟨r.ledger,
                [.findOrderById orderId, .getBlocknumber o.createdAt,
                  .getTxList depositAddress.address blockNumber] ++ r.calls,
                r.logs, firstErr r.errs⟩

/-- The queued tasks processed in order, threading the ledger. -/
def runQueue (env : Env) : List String → List String → RunOut
  | ledger, [] => ⟨ledger, []⟩
  | ledger, orderId :: rest =>
    let t := handleOrder env ledger orderId
    let r := runQueue env t.ledger rest
    ⟨r.ledger, t :: r.tasks⟩

/-- Version-2 `runScanByOrderId`. -/
def runScanByOrderId (env : Env) (ledger : List String) (orderIds : List String) : RunOut :=
  if env.etherscanApiKey.getD "" = "" then ⟨ledger, []⟩
  else runQueue env ledger orderIds

end V2

/-! ## Concrete fixtures used by witnesses and counterexamples -/

/-- A concrete native-method configuration. -/
def exMethod : NativeMethod := ⟨"ETH", "evm:eth"⟩

/-- A concrete order with an assigned deposit address. -/
def exOrder : Order := ⟨"order1", 1714000000000, some ⟨"0xsender"⟩⟩

/-- A concrete environment: one order, reachable both by id and by its
deposit address; the configured account is `0xAccT`. -/
def exEnv : Env where
  account := "0xAccT"
  nativeMethod := exMethod
  etherscanApiKey := some "key"
  orderById := fun oid => if oid = "order1" then some exOrder else none
  orderByAddress := fun a => if a = "0xsender" then some exOrder else none
  blocknumberAt := fun _ => some "1000"
  txListAt := fun _ _ => some []
  nodeGetTransaction := fun _ => none

/-- A well-formed transaction paying the configured account (different
letter case), 1 ether value, 21000 gas at 50 gwei. -/
def exTx : RawTx :=
  ⟨true, "0xsender", some "0xhash1", some "0xblock1", some "0xacct",
    10 ^ 18, 21000, some 50000000000⟩

/-- A concrete positive-value etherscan candidate. -/
def exCand : CandidateTx := ⟨"0xhash1", "0xsender", "0xacct", 5⟩

def exBadTx : RawTx := ⟨true, "0xsender", none, some "0xblock2", some "0xacct", 5, 1, some 1⟩

def exTxWrongTo : RawTx :=
  ⟨true, "0xsender", some "0xhash2", some "0xblock1", some "0xother", 5, 21000, some 1⟩

def cBad : CandidateTx := ⟨"badhash", "0xsender", "0xacct", 1⟩

def cGood : CandidateTx := ⟨"0xhash1", "0xsender", "0xacct", 2⟩

def exEnvScan : Env :=
  { exEnv with nodeGetTransaction := fun h =>
      if h = "badhash" then some exBadTx
      else if h = "0xhash1" then some exTx else none }

def exOrderNoAddr : Order := ⟨"order2", 5, none⟩

def exEnvNoAddr : Env :=
  { exEnv with orderById := fun oid =>
      if oid = "order2" then some exOrderNoAddr else none }

/-! ## Theorems -/

/-! ### Round trip: `parseDec (toDecString n) = some n` -/

theorem digitChar_toNat {d : Nat} (h : d < 10) : (digitChar d).toNat = 48 + d := by
  interval_cases d <;> rfl

theorem isDigitCh_digitChar {d : Nat} (h : d < 10) : isDigitCh (digitChar d) = true := by
  interval_cases d <;> rfl

theorem toDecAux_eq_digits : ∀ fuel n, n ≤ fuel →
    toDecAux fuel n = ((Nat.digits 10 n).map digitChar).reverse := by
  intro fuel
  induction fuel with
  | zero =>
    intro n hn
    interval_cases n
    simp [toDecAux]
  | succ fuel ih =>
    intro n hn
    match n with
    | 0 => simp [toDecAux]
    | m + 1 =>
      have hdiv : (m + 1) / 10 ≤ fuel := by
        have h1 : (m + 1) / 10 < m + 1 := Nat.div_lt_self (Nat.succ_pos m) (by norm_num)
        omega
      have hds : Nat.digits 10 (m + 1) = (m + 1) % 10 :: Nat.digits 10 ((m + 1) / 10) :=
        Nat.digits_def' (by norm_num) (Nat.succ_pos m)
      rw [toDecAux, ih _ hdiv, hds]
      simp

theorem foldl_digits (L : List Nat) (hL : ∀ d ∈ L, d < 10) (a : Nat) :
    ((L.map digitChar).reverse).foldl (fun acc c => 10 * acc + (c.toNat - 48)) a
      = a * 10 ^ L.length + Nat.ofDigits 10 L := by
  induction L generalizing a with
  | nil => simp
  | cons d L ih =>
    have hd : d < 10 := hL d (List.mem_cons_self d L)
    have hL' : ∀ x ∈ L, x < 10 := fun x hx => hL x (List.mem_cons_of_mem d hx)
    simp only [List.map_cons, List.reverse_cons, List.foldl_append, List.foldl_cons,
      List.foldl_nil, ih hL']
    rw [digitChar_toNat hd, Nat.ofDigits_cons]
    have h48 : 48 + d - 48 = d := by omega
    rw [h48]
    simp only [Nat.cast_id, List.length_cons, pow_succ]
    ring

theorem parseDec_toDecString (n : Nat) : parseDec (toDecString n) = some n := by
  by_cases h0 : n = 0
  · subst h0; rfl
  · have hne : Nat.digits 10 n ≠ [] := Nat.digits_ne_nil_iff_ne_zero.mpr h0
    have hlt : ∀ d ∈ Nat.digits 10 n, d < 10 :=
      fun d hd => Nat.digits_lt_base (by norm_num) hd
    have hdata : (toDecString n).data = ((Nat.digits 10 n).map digitChar).reverse := by
      simp only [toDecString, if_neg h0]
      exact toDecAux_eq_digits n n le_rfl
    have hnonnil : (toDecString n).data ≠ [] := by
      rw [hdata]
      simp [hne]
    have hall : (toDecString n).data.all isDigitCh = true := by
      rw [hdata, List.all_reverse, List.all_eq_true]
      intro c hc
      rw [List.mem_map] at hc
      obtain ⟨d, hd, rfl⟩ := hc
      exact isDigitCh_digitChar (hlt d hd)
    unfold parseDec
    rw [if_pos ⟨hnonnil, hall⟩, hdata, foldl_digits _ hlt 0]
    simp [Nat.ofDigits_digits]

theorem validateTx_ok_shape (tx : RawTx) (h : V2.validateTx tx = .ok ()) :
    tx.isObject = true ∧ tx.sender ≠ "" ∧ (∃ t, tx.hash = some t) ∧ ∃ b, tx.blockHash = some b := by
  rcases tx with ⟨io, sender, hash, blockHash, ta, v, gl, gp⟩
  cases io <;> rcases hash with _ | t <;> rcases blockHash with _ | b <;>
    by_cases hs : sender = "" <;>
      simp_all [V2.validateTx]

theorem scanTxid_error_of_validate (env : Env) (L : List String) (tx : RawTx) (e : String)
    (h : V2.validateTx tx = .error e) :
    V2.scanTxid env L tx = ⟨.error e, L, [], []⟩ := by
  simp [V2.scanTxid, h]

theorem scanTxid_shape (env : Env) (L : List String) (tx : RawTx) :
    (∃ e, V2.scanTxid env L tx = ⟨.error e, L, [], []⟩) ∨
    V2.scanTxid env L tx = ⟨.ok false, L, [], []⟩ ∨
    V2.scanTxid env L tx = ⟨.ok false, L, [.fetchOrderForAddress tx.sender], []⟩ ∨
    (∃ txid order total,
      tx.hash = some txid ∧
      env.orderByAddress tx.sender = some order ∧
      amountTotal (toDecString tx.value) (toDecString tx.gasLimit)
        (toDecString (tx.gasPrice.getD 0)) = some total ∧
      ((getEthereumNativeDepositUniqueId env.nativeMethod txid ∈ L ∧
        V2.scanTxid env L tx = ⟨.ok false, L,
          [.fetchOrderForAddress tx.sender,
            .maybeCreateDeposit order.id txid (formatEther ((parseDec total).getD 0))
              (getEthereumNativeDepositUniqueId env.nativeMethod txid)], []⟩) ∨
       (getEthereumNativeDepositUniqueId env.nativeMethod txid ∉ L ∧
        V2.scanTxid env L tx = ⟨.ok true,
          getEthereumNativeDepositUniqueId env.nativeMethod txid :: L,
          [.fetchOrderForAddress tx.sender,
            .maybeCreateDeposit order.id txid (formatEther ((parseDec total).getD 0))
              (getEthereumNativeDepositUniqueId env.nativeMethod txid)],
          [⟨txid, formatEther tx.value, env.nativeMethod.asset, order.id⟩]⟩))) := by
  rcases tx with ⟨io, sender, hash, blockHash, ta, v, gl, gp⟩
  rcases hv : V2.validateTx ⟨io, sender, hash, blockHash, ta, v, gl, gp⟩ with e | u
  · exact Or.inl ⟨e, scanTxid_error_of_validate _ _ _ _ hv⟩
  · cases u
    obtain ⟨hio, hsender, ⟨txid, htxid⟩, ⟨b, hb⟩⟩ := validateTx_ok_shape _ hv
    dsimp only at hio htxid hb
    subst hio htxid hb
    rcases hgb : isGasPriceAndToAddressCorrect env.account
        ⟨true, sender, some txid, some b, ta, v, gl, gp⟩ with _ | _
    · right; left
      simp [V2.scanTxid, hv, hgb]
    · rcases hat : amountTotal (toDecString v) (toDecString gl)
          (toDecString (gp.getD 0)) with _ | total
      · refine Or.inl ⟨"InvalidAmount", ?_⟩
        simp [V2.scanTxid, hv, hgb, hat]
      · rcases ho : env.orderByAddress sender with _ | order
        · right; right; left
          simp [V2.scanTxid, hv, hgb, hat, ho]
        · right; right; right
          refine ⟨txid, order, total, rfl, rfl, rfl, ?_⟩
          by_cases hm : getEthereumNativeDepositUniqueId env.nativeMethod txid ∈ L
          · refine Or.inl ⟨hm, ?_⟩
            simp [V2.scanTxid, hv, hgb, hat, ho, maybeInternalCreateDeposit, hm]
          · refine Or.inr ⟨hm, ?_⟩
            simp [V2.scanTxid, hv, hgb, hat, ho, maybeInternalCreateDeposit, hm]



theorem scanTxid_credit_uid (env : Env) (L : List String) (tx : RawTx)
    (o t a uid : String)
    (h : ExtCall.maybeCreateDeposit o t a uid ∈ (V2.scanTxid env L tx).calls) :
    ∃ txid, tx.hash = some txid ∧
      uid = getEthereumNativeDepositUniqueId env.nativeMethod txid := by
  rcases scanTxid_shape env L tx with ⟨e, hs⟩ | hs | hs |
      ⟨txid, order, total, htx, ho, hat, ⟨hm, hs⟩ | ⟨hm, hs⟩⟩ <;>
    rw [hs] at h <;> simp at h
  · exact ⟨txid, htx, h.2.2.2⟩
  · exact ⟨txid, htx, h.2.2.2⟩

theorem scanTxid_ledger_of_not_true (env : Env) (L : List String) (tx : RawTx)
    (h : (V2.scanTxid env L tx).result ≠ .ok true) :
    (V2.scanTxid env L tx).ledger = L := by
  rcases scanTxid_shape env L tx with ⟨e, hs⟩ | hs | hs |
      ⟨txid, order, total, htx, ho, hat, ⟨hm, hs⟩ | ⟨hm, hs⟩⟩ <;> rw [hs]
  exact absurd (by rw [hs]) h

theorem scanTxid_success (env : Env) (L : List String) (tx : RawTx)
    (h : (V2.scanTxid env L tx).result = .ok true) :
    ∃ txid order total,
      tx.hash = some txid ∧
      env.orderByAddress tx.sender = some order ∧
      amountTotal (toDecString tx.value) (toDecString tx.gasLimit)
        (toDecString (tx.gasPrice.getD 0)) = some total ∧
      getEthereumNativeDepositUniqueId env.nativeMethod txid ∉ L ∧
      V2.scanTxid env L tx = ⟨.ok true,
        getEthereumNativeDepositUniqueId env.nativeMethod txid :: L,
        [.fetchOrderForAddress tx.sender,
          .maybeCreateDeposit order.id txid (formatEther ((parseDec total).getD 0))
            (getEthereumNativeDepositUniqueId env.nativeMethod txid)],
        [⟨txid, formatEther tx.value, env.nativeMethod.asset, order.id⟩]⟩ := by
  rcases scanTxid_shape env L tx with ⟨e, hs⟩ | hs | hs |
      ⟨txid, order, total, htx, ho, hat, ⟨hm, hs⟩ | ⟨hm, hs⟩⟩ <;>
    (try (rw [hs] at h; simp at h))
  exact ⟨txid, order, total, htx, ho, hat, hm, hs⟩



theorem scanTxid_rejects_irrelevant (env : Env) (L : List String) (tx : RawTx)
    (hval : V2.validateTx tx = .ok ())
    (hrej : tx.toAddr = none ∨
      (∀ t, tx.toAddr = some t → toLowerStr t ≠ toLowerStr env.account) ∨
      tx.gasPrice = none) :
    V2.scanTxid env L tx = ⟨.ok false, L, [], []⟩ := by
  have hguard : isGasPriceAndToAddressCorrect env.account tx = false := by
    unfold isGasPriceAndToAddressCorrect
    rcases hto : tx.toAddr with _ | t
    · rfl
    · rcases hrej with h | h | h
      · simp_all
      · simp [h t hto]
      · simp [h]
  simp [V2.scanTxid, hval, hguard]

theorem scanTxid_redelivery_idempotent (env₁ env₂ : Env) (L : List String)
    (tx₁ tx₂ : RawTx)
    (hm : env₁.nativeMethod = env₂.nativeMethod) (hh : tx₁.hash = tx₂.hash) :
    (∀ o t a uid o' t' a' uid' L',
      ExtCall.maybeCreateDeposit o t a uid ∈ (V2.scanTxid env₁ L tx₁).calls →
      ExtCall.maybeCreateDeposit o' t' a' uid' ∈ (V2.scanTxid env₂ L' tx₂).calls →
      uid = uid') ∧
    ((V2.scanTxid env₁ L tx₁).result = .ok true →
      maybeInternalCreateDeposit (V2.scanTxid env₁ L tx₁).ledger
        (getEthereumNativeDepositUniqueId env₂.nativeMethod (tx₂.hash.getD "")) =
        (false, (V2.scanTxid env₁ L tx₁).ledger) ∧
      (V2.scanTxid env₂ (V2.scanTxid env₁ L tx₁).ledger tx₂).result ≠ .ok true ∧
      (V2.scanTxid env₂ (V2.scanTxid env₁ L tx₁).ledger tx₂).ledger =
        (V2.scanTxid env₁ L tx₁).ledger) := by
  constructor
  · intro o t a uid o' t' a' uid' L' h1 h2
    obtain ⟨txid1, htx1, hu1⟩ := scanTxid_credit_uid env₁ L tx₁ o t a uid h1
    obtain ⟨txid2, htx2, hu2⟩ := scanTxid_credit_uid env₂ L' tx₂ o' t' a' uid' h2
    have : txid1 = txid2 := by
      rw [hh] at htx1
      rw [htx1] at htx2
      exact Option.some_injective _ htx2
    rw [hu1, hu2, hm, this]
  · intro h
    obtain ⟨txid, order, total, htx, ho, hat, hmem, hs⟩ := scanTxid_success env₁ L tx₁ h
    have huid : getEthereumNativeDepositUniqueId env₂.nativeMethod (tx₂.hash.getD "") =
        getEthereumNativeDepositUniqueId env₁.nativeMethod txid := by
      rw [← hm, ← hh, htx]
      rfl
    have hledger : (V2.scanTxid env₁ L tx₁).ledger =
        getEthereumNativeDepositUniqueId env₁.nativeMethod txid :: L := by
      rw [hs]
    have hnot : (V2.scanTxid env₂ (V2.scanTxid env₁ L tx₁).ledger tx₂).result ≠ .ok true := by
      intro h2
      obtain ⟨txid2, order2, total2, htx2, ho2, hat2, hmem2, hs2⟩ :=
        scanTxid_success env₂ _ tx₂ h2
      apply hmem2
      rw [hledger]
      have : txid2 = txid := by
        rw [hh] at htx
        rw [htx] at htx2
        exact (Option.some_injective _ htx2).symm
      rw [this, ← hm]
      exact List.mem_cons_self _ _
    refine ⟨?_, hnot, scanTxid_ledger_of_not_true _ _ _ hnot⟩
    rw [huid, hledger]
    simp [maybeInternalCreateDeposit]

theorem malformed_tx_guarded :
    (∀ tx : RawTx,
      (tx.isObject = false ∨ tx.sender = "" ∨ tx.hash = none ∨ tx.blockHash = none) →
      ∃ e, V2.validateTx tx = .error e) ∧
    ∀ (env : Env) (L : List String) (tx : RawTx) (e : String),
      V2.validateTx tx = .error e → V2.scanTxid env L tx = ⟨.error e, L, [], []⟩ := by
  constructor
  · intro tx h
    rcases hv : V2.validateTx tx with e | u
    · exact ⟨e, rfl⟩
    · exfalso
      cases u
      obtain ⟨hio, hs, ⟨t, ht⟩, ⟨b, hb⟩⟩ := validateTx_ok_shape tx hv
      rcases h with h | h | h | h <;> simp_all
  · exact fun env L tx e h => scanTxid_error_of_validate env L tx e h

theorem scanTxid_ok_true_logs (env : Env) (L : List String) (tx : RawTx)
    (h : (V2.scanTxid env L tx).result = .ok true) :
    ∃ txid order,
      tx.hash = some txid ∧ env.orderByAddress tx.sender = some order ∧
      (V2.scanTxid env L tx).logs =
        [⟨txid, formatEther tx.value, env.nativeMethod.asset, order.id⟩] := by
  obtain ⟨txid, order, total, htx, ho, hat, hmem, hs⟩ := scanTxid_success env L tx h
  exact ⟨txid, order, htx, ho, by rw [hs]⟩



theorem scanCandidate_head_call (env : Env) (L : List String) (c : CandidateTx) :
    ExtCall.getTransaction c.hash ∈ (V2.scanCandidate env L c).calls := by
  rcases h : env.nodeGetTransaction c.hash with _ | tx <;>
    simp [V2.scanCandidate, h]

theorem scanCandidates_isolated (env : Env) (L : List String) (txs : List CandidateTx) :
    ((V2.scanCandidates env L txs).errs.length = txs.length) ∧
    ∀ c ∈ txs, ExtCall.getTransaction c.hash ∈ (V2.scanCandidates env L txs).calls := by
  induction txs generalizing L with
  | nil => exact ⟨rfl, by simp⟩
  | cons c rest ih =>
    constructor
    · simp [V2.scanCandidates, (ih _).1]
    · intro c' hc'
      rcases List.mem_cons.mp hc' with rfl | hmem
      · simp only [V2.scanCandidates]
        exact List.mem_append_left _ (scanCandidate_head_call env L c')
      · simp only [V2.scanCandidates]
        exact List.mem_append_right _ ((ih _).2 c' hmem)

theorem handleOrder_early_termination (env : Env) (L : List String) (oid : String)
    (h : env.orderById oid = none ∨
      ∃ o, env.orderById oid = some o ∧ o.depositAddress = none) :
    V1.handleOrder env L oid = ⟨L, [.findOrderById oid], [], none⟩ ∧
    V2.handleOrder env L oid = ⟨L, [.findOrderById oid], [], none⟩ := by
  rcases h with h | ⟨o, ho, hda⟩ <;>
    constructor <;>
      simp [V1.handleOrder, V2.handleOrder,
        V2.checkIfOrderExistsAndOrderAddressAssigned, *]

theorem scanTxid_eq (env : Env) (L : List String) (tx : RawTx) :
    V1.scanTxid env L tx = V2.scanTxid env L tx := by
  rcases tx with ⟨io, sender, hash, blockHash, ta, v, gl, gp⟩
  cases io <;> rcases hash with _ | t <;> rcases blockHash with _ | b <;>
    by_cases hs : sender = "" <;>
      simp_all [V1.scanTxid, V2.scanTxid, V2.validateTx]

theorem scanCandidate_eq (env : Env) (L : List String) (c : CandidateTx) :
    V1.scanCandidate env L c = V2.scanCandidate env L c := by
  rcases h : env.nodeGetTransaction c.hash with _ | tx <;>
    simp [V1.scanCandidate, V2.scanCandidate, h, scanTxid_eq]

theorem scanCandidates_eq (env : Env) (L : List String) (txs : List CandidateTx) :
    V1.scanCandidates env L txs = V2.scanCandidates env L txs := by
  induction txs generalizing L with
  | nil => rfl
  | cons c rest ih =>
    simp [V1.scanCandidates, V2.scanCandidates, scanCandidate_eq, ih]

theorem handleOrder_eq (env : Env) (L : List String) (oid : String) :
    V1.handleOrder env L oid = V2.handleOrder env L oid := by
  rcases ho : env.orderById oid with _ | o
  · simp [V1.handleOrder, V2.handleOrder,
      V2.checkIfOrderExistsAndOrderAddressAssigned, ho]
  · rcases hda : o.depositAddress with _ | da <;>
      simp [V1.handleOrder, V2.handleOrder,
        V2.checkIfOrderExistsAndOrderAddressAssigned, ho, hda, scanCandidates_eq]

theorem runQueue_eq (env : Env) (L : List String) (ids : List String) :
    V1.runQueue env L ids = V2.runQueue env L ids := by
  induction ids generalizing L with
  | nil => rfl
  | cons oid rest ih =>
    simp [V1.runQueue, V2.runQueue, handleOrder_eq, ih]

theorem worker_versions_equivalent (env : Env) (L : List String) (ids : List String) :
    V1.runScanByOrderId env L ids = V2.runScanByOrderId env L ids := by
  by_cases h : env.etherscanApiKey.getD "" = "" <;>
    simp [V1.runScanByOrderId, V2.runScanByOrderId, h, runQueue_eq]



theorem scanTxid_obs_not_credited_amount :
    (V2.scanTxid exEnv [] exTx).result = .ok true ∧
    (V2.scanTxid exEnv [] exTx).calls =
      [.fetchOrderForAddress "0xsender",
        .maybeCreateDeposit "order1" "0xhash1" "1.00105"
          (getEthereumNativeDepositUniqueId exMethod "0xhash1")] ∧
    (V2.scanTxid exEnv [] exTx).logs = [⟨"0xhash1", "1.0", "ETH", "order1"⟩] ∧
    ("1.0" : String) ≠ "1.00105" :=
  ⟨by rfl, by rfl, by rfl, by decide⟩

theorem scanTxid_redelivery_idempotent_witness :
    (V2.scanTxid exEnv [] exTx).result = .ok true ∧
    (maybeInternalCreateDeposit (V2.scanTxid exEnv [] exTx).ledger
        (getEthereumNativeDepositUniqueId exEnv.nativeMethod (exTx.hash.getD "")) =
      (false, (V2.scanTxid exEnv [] exTx).ledger) ∧
    (V2.scanTxid exEnv (V2.scanTxid exEnv [] exTx).ledger exTx).result ≠ .ok true ∧
    (V2.scanTxid exEnv (V2.scanTxid exEnv [] exTx).ledger exTx).ledger =
      (V2.scanTxid exEnv [] exTx).ledger) :=
  ⟨by rfl,
    (scanTxid_redelivery_idempotent exEnv exEnv [] exTx exTx rfl rfl).2 (by rfl)⟩

theorem scanTxid_rejects_irrelevant_witness :
    V2.scanTxid exEnv [] exTxWrongTo = ⟨.ok false, [], [], []⟩ :=
  scanTxid_rejects_irrelevant exEnv [] exTxWrongTo (by rfl)
    (Or.inr (Or.inl (fun t ht => by cases ht; decide)))

theorem scanCandidates_isolated_witness :
    (V2.scanCandidates exEnvScan [] [cBad, cGood]).errs =
      [some "txid must be string", none] ∧
    (V2.scanCandidates exEnvScan [] [cBad, cGood]).errs.length = [cBad, cGood].length ∧
    ExtCall.getTransaction cGood.hash ∈ (V2.scanCandidates exEnvScan [] [cBad, cGood]).calls :=
  ⟨by rfl, (scanCandidates_isolated exEnvScan [] [cBad, cGood]).1,
    (scanCandidates_isolated exEnvScan [] [cBad, cGood]).2 cGood (by decide)⟩

theorem handleOrder_early_termination_witness :
    V1.handleOrder exEnvNoAddr [] "order2" = ⟨[], [.findOrderById "order2"], [], none⟩ ∧
    V2.handleOrder exEnvNoAddr [] "order2" = ⟨[], [.findOrderById "order2"], [], none⟩ :=
  handleOrder_early_termination exEnvNoAddr [] "order2"
    (Or.inr ⟨exOrderNoAddr, by rfl, rfl⟩)

theorem malformed_tx_guarded_witness :
    (∃ e, V2.validateTx exBadTx = .error e) ∧
    V2.scanTxid exEnv [] exBadTx = ⟨.error "txid must be string", [], [], []⟩ :=
  ⟨malformed_tx_guarded.1 exBadTx (Or.inr (Or.inr (Or.inl rfl))),
    malformed_tx_guarded.2 exEnv [] exBadTx "txid must be string" (by rfl)⟩

theorem scanTxid_ok_true_logs_witness :
    ∃ txid order,
      exTx.hash = some txid ∧ exEnv.orderByAddress exTx.sender = some order ∧
      (V2.scanTxid exEnv [] exTx).logs =
        [⟨txid, formatEther exTx.value, exEnv.nativeMethod.asset, order.id⟩] :=
  scanTxid_ok_true_logs exEnv [] exTx (by rfl)

/-! ## Claim theorems -/

/-- C2 (counterexample): the worked example in the claim is wrong on the
code: `value = 10^18`, `gasLimit = 21000`, `gasPrice = 5*10^10` give the
total `"1001050000000000000"` (`10^18 + 21000 * 5*10^10`), not the claimed
`"2050000000000000000"`. -/
theorem amountTotal_example_false :
    amountTotal "1000000000000000000" "21000" "50000000000" = some "1001050000000000000" ∧
    amountTotal "1000000000000000000" "21000" "50000000000" ≠ some "2050000000000000000" := by
  constructor
  · rfl
  · decide

/-- C2 (amended): for all non-negative decimal string inputs the computed
total is a decimal string denoting exactly `value + gasLimit * gasPrice`,
with no rounding drift. -/
theorem amountTotal_exact (value gasLimit gasPrice : String) (v gl gp : Nat)
    (hv : parseDec value = some v) (hgl : parseDec gasLimit = some gl)
    (hgp : parseDec gasPrice = some gp) :
    ∃ t, amountTotal value gasLimit gasPrice = some t ∧
      parseDec t = some (v + gl * gp) := by
  refine ⟨toDecString (v + gl * gp), ?_, parseDec_toDecString _⟩
  simp [amountTotal, nsTimes, nsSum, hv, hgl, hgp, parseDec_toDecString]

/-- C2 (witness): the amended theorem applied at the claim's example
inputs. -/
theorem amountTotal_exact_witness :
    ∃ t, amountTotal "1000000000000000000" "21000" "50000000000" = some t ∧
      parseDec t = some (1000000000000000000 + 21000 * 50000000000) :=
  amountTotal_exact "1000000000000000000" "21000" "50000000000"
    1000000000000000000 21000 50000000000 (by rfl) (by rfl) (by rfl)

/-- C4: the candidate selection returns at most 10 transactions, all with
strictly positive value, the output is the 10-element front of the
filtered input (so relative order is preserved and the output is a
sublist of the input), and an all-zero-value (in particular empty) input
yields the empty output. -/
theorem trimmedTxs_spec (txs : List CandidateTx) :
    (trimmedTxs txs).length ≤ 10 ∧
    (∀ c ∈ trimmedTxs txs, 0 < c.value) ∧
    (∃ rest, trimmedTxs txs ++ rest = txs.filter fun tx => 0 < tx.value) ∧
    (trimmedTxs txs).Sublist txs ∧
    ((∀ c ∈ txs, c.value = 0) → trimmedTxs txs = []) := by
  refine ⟨?_, ?_, ?_, ?_, ?_⟩
  · simp [trimmedTxs]
  · intro c hc
    have hmem : c ∈ txs.filter fun tx => 0 < tx.value :=
      List.take_subset 10 _ hc
    simpa using (List.mem_filter.mp hmem).2
  · refine ⟨(txs.filter fun tx => 0 < tx.value).drop 10, ?_⟩
    rw [trimmedTxs]
    exact List.take_append_drop _ _
  · exact (List.take_sublist _ _).trans (List.filter_sublist _)
  · intro h
    have hnil : (txs.filter fun tx => 0 < tx.value) = [] := by
      rw [List.filter_eq_nil_iff]
      intro c hc
      simp [h c hc]
    simp [trimmedTxs, hnil]

/-- C4 (witness): the selection applied to a two-element list with one
zero-value entry. -/
theorem trimmedTxs_spec_witness :
    0 < exCand.value ∧ trimmedTxs [exCand, ⟨"0xh2", "a", "b", 0⟩] = [exCand] :=
  ⟨(trimmedTxs_spec [exCand, ⟨"0xh2", "a", "b", 0⟩]).2.1 exCand (by decide), by decide⟩

/-- C5 (counterexample): the claim is false — the selection filters
zero-value transactions out first and only then takes the first 10, so no
input with at least 10 positive-value transactions can yield fewer than 10
outputs. -/
theorem trimmedTxs_lossy_claim_false :
    ¬ ∃ txs : List CandidateTx,
      10 ≤ (txs.filter fun tx => 0 < tx.value).length ∧
        (trimmedTxs txs).length < 10 := by
  rintro ⟨txs, h10, hlt⟩
  rw [trimmedTxs, List.length_take] at hlt
  omega

/-- C5 (amended): with at least 10 positive-value transactions in the
input the selection returns exactly 10, regardless of interleaved
zero-value transactions; the code comment about fewer than 10 describes
the rejected pagination alternative, not the implemented
filter-then-slice policy. -/
theorem trimmedTxs_ten_when_enough (txs : List CandidateTx)
    (h : 10 ≤ (txs.filter fun tx => 0 < tx.value).length) :
    (trimmedTxs txs).length = 10 := by
  rw [trimmedTxs, List.length_take]
  omega

/-- C5 (witness): the amended theorem on 12 positive-value transactions
interleaved with zero-value ones. -/
theorem trimmedTxs_ten_when_enough_witness :
    (trimmedTxs (List.replicate 6 exCand ++ ⟨"0xh2", "a", "b", 0⟩ ::
      List.replicate 6 exCand)).length = 10 :=
  trimmedTxs_ten_when_enough _ (by decide)

end CNE
